import Mathlib

/-!
Shallow embedding of the Installer orchestration core of the getlino
repository (src/getlino/utils.py and the legacy src/getlino.py).

Modelling conventions:
* Interactive input (`click.getchar`) is an explicit stream `List Char`;
  a prompt consumes characters from it.  A computation that would block
  forever (empty stream while prompting) is modelled as `Option.none`.
* The filesystem is a finite association list from paths to entries
  (regular file or directory, with permission bits and group owner).
* Subprocess exit codes come from an oracle `exit : String → Nat`.
* Observable side effects (echo, spawning a process, chown, chmod) are
  collected in a trace `List Effect`.
* Python `set` fields (`_services`, `_system_packages`) are modelled as
  duplicate-free lists built by `setInsert` (one admissible iteration
  order of the Python set).
* `click.ClickException` and `click.Abort` are modelled as explicit
  result values (`ClickException`, `SessionExit.abort`).
-/

namespace Getlino

/-- An observable side effect of the installer. -/
inductive Effect where
  | echo : String → Effect
  | runProcess : String → Effect
  | chown : String → String → Effect
  | chmod : String → Nat → Effect
  deriving DecidableEq, Repr

/-- A `click.ClickException` carrying its message. -/
structure ClickException where
  message : String
  deriving DecidableEq, Repr

/-- How a session ends abnormally: user cancellation (`click.Abort`) or an
error (`click.ClickException`). -/
inductive SessionExit where
  | abort : SessionExit
  | failure : ClickException → SessionExit
  deriving DecidableEq, Repr

/-- One filesystem entry: `isDir` is the file-type bit of `st_mode`,
`mode` the 12 permission bits (`stat.S_IMODE`), `group` the group owner
name (`grp.getgrgid(st_gid).gr_name`). -/
structure FSEntry where
  isDir : Bool
  content : String
  mode : Nat
  group : String
  deriving DecidableEq, Repr

/-- The filesystem: a finite map from paths to entries. -/
abbrev FS := List (String × FSEntry)

def fsLookup (fs : FS) (p : String) : Option FSEntry :=
  (fs.find? (fun pe => pe.1 = p)).map (·.2)

/-- `os.remove`: drop the entry at `p`. -/
def fsRemove (fs : FS) (p : String) : FS :=
  fs.filter (fun pe => pe.1 ≠ p)

/-- `shutil.rmtree`: drop the entry at `p` and everything below it. -/
def fsRmtree (fs : FS) (p : String) : FS :=
  fs.filter (fun pe => ¬(pe.1 = p ∨ (p ++ "/").isPrefixOf pe.1))

/-- Update the entry at `p` in place (used for `chown`/`chmod`). -/
def fsUpdate (fs : FS) (p : String) (f : FSEntry → FSEntry) : FS :=
  fs.map (fun pe => if pe.1 = p then (pe.1, f pe.2) else pe)

/-- `open(p, 'w')` followed by a write: replace or create the entry at `p`.
The initial permission bits and group owner of a freshly created file are
decided by the operating system, hence passed in as parameters. -/
def fsWrite (fs : FS) (p : String) (e : FSEntry) : FS :=
  fsRemove fs p ++ [(p, e)]

/-- `os.path.join` for the simple relative-second-argument case used by
`write_supervisor_conf`. -/
def path_join (a b : String) : String := a ++ "/" ++ b

/-- The volatile `Installer` object: `batch` is `self.batch`, `services`
models the set `self._services`, `system_packages` the set
`self._system_packages`. -/
structure Installer where
  batch : Bool
  services : List String
  system_packages : List String
  deriving DecidableEq, Repr

/-- Python `set.add`: insert a name unless already present. -/
def setInsert (x : String) (l : List String) : List String :=
  if x ∈ l then l else l ++ [x]

/-- The interactive loop of `yes_or_no`: read characters until one is in
the accept set `yY` or the reject set `nN`; other characters re-prompt.
Every call site of `yes_or_no` in the source uses these default
character sets.  An exhausted stream models blocking forever. -/
def read_answer : List Char → Option (Bool × List Char)
  | [] => none
  | c :: rest =>
      if c = 'y' ∨ c = 'Y' then some (true, rest)
      else if c = 'n' ∨ c = 'N' then some (false, rest)
      else read_answer rest

/-- `Installer.yes_or_no(msg, default=dflt)` (utils.py): in batch mode,
return the default answer at once without touching the input stream;
otherwise block on the single-character loop. -/
def yes_or_no (i : Installer) (input : List Char) (dflt : Bool) :
    Option (Bool × List Char) :=
  if i.batch then some (dflt, input)
  else read_answer input

/-- The gate pattern `self.batch or self.yes_or_no(msg, default=True)`
used by `runcmd`, `check_permissions` and `finish`. -/
def batch_or_confirm (i : Installer) (input : List Char) :
    Option (Bool × List Char) :=
  if i.batch then some (true, input)
  else read_answer input

/-- `Installer.check_overwrite` (utils.py): if the path exists, ask for
confirmation; on acceptance remove the file resp. remove the directory
tree and return `true`; on refusal return `false` without mutating; if
the path does not exist, return `true` without prompting. -/
def check_overwrite (i : Installer) (fs : FS) (input : List Char)
    (pth : String) : Option (Bool × FS × List Char) :=
  match fsLookup fs pth with
  | none => some (true, fs, input)
  | some e =>
      if e.isDir then
        match yes_or_no i input true with
        | none => none
        | some (true, rest) => some (true, fsRmtree fs pth, rest)
        | some (false, rest) => some (false, fs, rest)
      else
        match yes_or_no i input true with
        | none => none
        | some (true, rest) => some (true, fsRemove fs pth, rest)
        | some (false, rest) => some (false, fs, rest)

/-- `Installer.must_restart`: add a service name to the pending set. -/
def must_restart (i : Installer) (srv : String) : Installer :=
  { i with services := setInsert srv i.services }

/-- Helper for `words`: split a character list on runs of spaces, the
accumulator holding the current word reversed. -/
def splitWordsAux : List Char → List Char → List String
  | [], acc => if acc = [] then [] else [String.mk acc.reverse]
  | c :: cs, acc =>
      if c = ' ' then
        if acc = [] then splitWordsAux cs []
        else String.mk acc.reverse :: splitWordsAux cs []
      else splitWordsAux cs (c :: acc)

/-- Python `str.split()` on the space-separated package lists passed to
`apt_install`: split on whitespace runs, dropping empty fields (the call
sites separate names by spaces). -/
def words (s : String) : List String :=
  splitWordsAux s.toList []

/-- `Installer.apt_install`: add each whitespace-separated package name to
the pending package set; nothing is executed now. -/
def apt_install (i : Installer) (packages : String) : Installer :=
  { i with system_packages :=
      (words packages).foldl (fun l p => setInsert p l) i.system_packages }

/-- `Installer.runcmd` (utils.py): gate via `self.batch or
self.yes_or_no(...)`; when confirmed, echo and spawn the command once; if
the exit code is non-zero raise a `ClickException` naming the command and
the code.  Result: effect trace, outcome, remaining input. -/
def runcmd (i : Installer) (exit : String → Nat) (input : List Char)
    (cmd : String) :
    Option (List Effect × Except ClickException Unit × List Char) :=
  let proceed : List Char →
      Option (List Effect × Except ClickException Unit × List Char) :=
    fun inp =>
      let rc := exit cmd
      if rc = 0 then
        some ([Effect.echo cmd, Effect.runProcess cmd], Except.ok (), inp)
      else
        some ([Effect.echo cmd, Effect.runProcess cmd],
          Except.error ⟨cmd ++ " ended with return code " ++ toString rc⟩,
          inp)
  if i.batch then proceed input
  else
    match read_answer input with
    | none => none
    | some (true, rest) => proceed rest
    | some (false, rest) => some ([], Except.ok (), rest)

/-- `Installer.override_batch` (utils.py): a `try/finally` scope that sets
`self.batch` to `b`, runs the body, and restores the previous value even
when the body raises.  The body is explicit state passing: it always
returns the mutated installer next to its `Except` outcome, because in
the source mutations to `self` survive an exception. -/
def override_batch {ε α : Type} (i : Installer) (b : Bool)
    (body : Installer → Installer × Except ε α) :
    Installer × Except ε α :=
  let r := body { i with batch := b }
  ({ r.1 with batch := i.batch }, r.2)

/-- The target permission bits computed by `check_permissions`:
group and owner read/write plus other read, with set-group-id and full
execute for directories, or full execute for explicitly executable
files. -/
def targetMode (isDir executable : Bool) : Nat :=
  let mode := 0o040 ||| 0o020 ||| 0o400 ||| 0o200 ||| 0o004
  if isDir then mode ||| 0o2000 ||| 0o100 ||| 0o010 ||| 0o001
  else if executable then mode ||| 0o100 ||| 0o010 ||| 0o001
  else mode

/-- `Installer.check_permissions` (utils.py): stat the path once; when
running as root and the group owner differs from the configured
`usergroup`, a gated `chown`; independently, when the permission bits
XOR the target mode are non-zero, a gated `chmod` to the target mode.
`root` models `ifroot()`, `usergroup` the configured default section
value.  A missing path (`os.stat` raising) is `none`. -/
def check_permissions (root : Bool) (usergroup : String) (i : Installer)
    (fs : FS) (input : List Char) (pth : String) (executable : Bool) :
    Option (FS × List Effect × List Char) :=
  match fsLookup fs pth with
  | none => none
  | some si =>
    let afterGroup : Option (FS × List Effect × List Char) :=
      if root then
        if si.group = usergroup then some (fs, [], input)
        else
          match batch_or_confirm i input with
          | none => none
          | some (true, rest) =>
              some (fsUpdate fs pth (fun e => { e with group := usergroup }),
                [Effect.chown pth usergroup], rest)
          | some (false, rest) => some (fs, [], rest)
      else some (fs, [], input)
    match afterGroup with
    | none => none
    | some (fs2, effs2, inp2) =>
      let tmode := targetMode si.isDir executable
      if si.mode ^^^ tmode ≠ 0 then
        match batch_or_confirm i inp2 with
        | none => none
        | some (true, rest) =>
            some (fsUpdate fs2 pth (fun e => { e with mode := tmode }),
              effs2 ++ [Effect.chmod pth tmode], rest)
        | some (false, rest) => some (fs2, effs2, rest)
      else some (fs2, effs2, inp2)

/-- The corrective mutations (chown or chmod) in a trace. -/
def mutationCount (effs : List Effect) : Nat :=
  effs.countP (fun e =>
    match e with
    | Effect.chown _ _ => true
    | Effect.chmod _ _ => true
    | _ => false)

/-- `Installer.write_file` (utils.py): `check_overwrite`, then write the
content and normalise permissions under `override_batch(True)`.  When the
overwrite is declined the Python function falls through and returns
`None`, modelled as result `Option.none` in the last component.
`createMode`/`createGroup` are the OS-chosen initial bits of the freshly
created file. -/
def write_file (root : Bool) (usergroup : String) (i : Installer)
    (fs : FS) (input : List Char) (pth content : String)
    (executable : Bool) (createMode : Nat) (createGroup : String) :
    Option (Installer × FS × List Char × Option Bool) :=
  match check_overwrite i fs input pth with
  | none => none
  | some (false, fs2, inp2) => some (i, fs2, inp2, none)
  | some (true, fs2, inp2) =>
    let fs3 := fsWrite fs2 pth
      { isDir := false, content := content, mode := createMode,
        group := createGroup }
    match check_permissions root usergroup { i with batch := true } fs3
        inp2 pth executable with
    | none => none
    | some (fs4, _, inp3) => some (i, fs4, inp3, some true)

/-- `Installer.write_supervisor_conf` (utils.py): write the file below the
configured supervisor directory, then unconditionally record that the
`supervisor` service must restart. -/
def write_supervisor_conf (root : Bool) (usergroup supervisor_dir : String)
    (i : Installer) (fs : FS) (input : List Char)
    (filename content : String) (createMode : Nat) (createGroup : String) :
    Option (Installer × FS × List Char × Option Bool) :=
  match write_file root usergroup i fs input
      (path_join supervisor_dir filename) content false
      createMode createGroup with
  | none => none
  | some (i2, fs2, inp2, res) =>
      some (must_restart i2 "supervisor", fs2, inp2, res)

/-- `Installer.check_usergroup` (utils.py): nothing to do as root;
otherwise scan the calling user group memberships (given here directly
as the list of group names) and raise a `ClickException` with a
remediation message naming the missing group. -/
def usergroup_errmsg (username usergroup : String) : String :=
  "You " ++ username ++ " don\x27t belong to the " ++ usergroup ++
    " user group.  Maybe you want to run:\nsudo adduser `whoami` " ++
    usergroup

def check_usergroup (root : Bool) (username : String)
    (groups : List String) (usergroup : String) :
    Except ClickException Unit :=
  if root then Except.ok ()
  else if usergroup ∈ groups then Except.ok ()
  else Except.error ⟨usergroup_errmsg username usergroup⟩

/-- The single combined package-manager command line built by
`run_apt_install`: batch mode appends the non-interactive `-y` flag. -/
def apt_cmd (i : Installer) : String :=
  "sudo apt-get install " ++ (if i.batch then "-y " else "") ++
    String.intercalate " " i.system_packages

/-- `Installer.run_apt_install` (utils.py): nothing when no package is
pending, else one `runcmd` of the combined command line. -/
def run_apt_install (i : Installer) (exit : String → Nat)
    (input : List Char) :
    Option (List Effect × Except ClickException Unit × List Char) :=
  if i.system_packages = [] then some ([], Except.ok (), input)
  else runcmd i exit input (apt_cmd i)

/-- One service restart inside `finish`: under `override_batch(True)` the
gate of `runcmd` always passes; a failing restart is retried once through
the `/etc/init.d` fallback, whose own failure is swallowed
(`continue`). -/
def restart_service (exit : String → Nat) (srv : String) : List Effect :=
  let c1 := "sudo service " ++ srv ++ " restart"
  let c2 := "sudo /etc/init.d/" ++ srv ++ "  restart"
  if exit c1 = 0 then [Effect.echo c1, Effect.runProcess c1]
  else [Effect.echo c1, Effect.runProcess c1, Effect.echo c2,
    Effect.runProcess c2]

/-- The report the source intends to emit instead of flushing when not
running as root (the branch body at the top of `finish`). -/
def finish_skip_report (i : Installer) : List Effect :=
  (if i.system_packages ≠ [] then
    [Effect.echo ("Note that the following system packages were not " ++
      "installed because you aren\x27t root:\n" ++
      String.intercalate " " i.system_packages)] else [])
  ++ (if i.services ≠ [] then
    [Effect.echo ("The following system services were not " ++
      "restarted because you aren\x27t root:\n" ++
      String.intercalate " " i.services)] else [])

/-- `Installer.finish` (utils.py).  The guard of the skip branch in the
source is literally `if not ifroot() and False:`, so the branch is
unreachable; it is transcribed here verbatim.  Then the accumulated
packages are flushed through `run_apt_install` (whose failure
propagates), and, when services are pending, a gated restart loop runs
with restart failures tolerated via the fallback. -/
def finish (root : Bool) (i : Installer) (exit : String → Nat)
    (input : List Char) :
    Option (List Effect × Except ClickException Unit × List Char) :=
  if (!root && false) then
    some (finish_skip_report i, Except.ok (), input)
  else
    match run_apt_install i exit input with
    | none => none
    | some (effs1, Except.error e, inp1) =>
        some (effs1, Except.error e, inp1)
    | some (effs1, Except.ok _, inp1) =>
      if i.services ≠ [] then
        match batch_or_confirm i inp1 with
        | none => none
        | some (false, inp2) => some (effs1, Except.ok (), inp2)
        | some (true, inp2) =>
            some (effs1 ++ (i.services.map (restart_service exit)).flatten,
              Except.ok (), inp2)
      else some (effs1, Except.ok (), inp1)

end Getlino

namespace GetlinoLegacy

open Getlino

/-- `Installer.yes_or_no` of the legacy top-level script src/getlino.py:
batch mode returns `True` (the function has no default parameter),
otherwise the same single-character loop. -/
def yes_or_no (i : Installer) (input : List Char) :
    Option (Bool × List Char) :=
  if i.batch then some (true, input)
  else read_answer input

/-- `Installer.check_overwrite` of the legacy src/getlino.py: when the
path exists and the user declines, raise `click.Abort` (clean user
cancellation) without mutating; when accepted, remove the file or the
directory tree; when the path does not exist, do nothing. -/
def check_overwrite (i : Installer) (fs : FS) (input : List Char)
    (pth : String) : Option (FS × Option SessionExit × List Char) :=
  match fsLookup fs pth with
  | none => some (fs, none, input)
  | some e =>
      if e.isDir then
        match yes_or_no i input with
        | none => none
        | some (true, rest) => some (fsRmtree fs pth, none, rest)
        | some (false, rest) => some (fs, some SessionExit.abort, rest)
      else
        match yes_or_no i input with
        | none => none
        | some (true, rest) => some (fsRemove fs pth, none, rest)
        | some (false, rest) => some (fs, some SessionExit.abort, rest)

end GetlinoLegacy

open Getlino

/-! Helper lemmas shared by the proofs below. -/

theorem mem_setInsert {x a : String} {l : List String} :
    x ∈ setInsert a l ↔ x = a ∨ x ∈ l := by
  unfold setInsert
  by_cases h : a ∈ l
  · simp only [h, if_true]
    exact ⟨Or.inr, fun m => m.elim (fun e => e ▸ h) id⟩
  · simp [h, List.mem_append, or_comm]

theorem mem_setInsert_self (a : String) (l : List String) :
    a ∈ setInsert a l :=
  mem_setInsert.mpr (Or.inl rfl)

theorem nodup_setInsert (a : String) {l : List String} (h : l.Nodup) :
    (setInsert a l).Nodup := by
  unfold setInsert
  by_cases ha : a ∈ l
  · simpa [ha] using h
  · simp [ha, List.nodup_append, h]

theorem mem_foldl_setInsert (ws : List String) :
    ∀ (l : List String) (x : String),
      x ∈ ws.foldl (fun l p => setInsert p l) l ↔ x ∈ l ∨ x ∈ ws := by
  induction ws with
  | nil => intro l x; simp
  | cons w ws ih =>
      intro l x
      simp only [List.foldl_cons, ih, mem_setInsert, List.mem_cons]
      tauto

theorem nodup_foldl_setInsert (ws : List String) :
    ∀ l : List String, l.Nodup →
      (ws.foldl (fun l p => setInsert p l) l).Nodup := by
  induction ws with
  | nil => intro l h; simpa using h
  | cons w ws ih => intro l h; exact ih _ (nodup_setInsert w h)

theorem apt_install_foldl_fields (reqs : List String) :
    ∀ i : Installer,
      (reqs.foldl apt_install i).batch = i.batch
      ∧ (reqs.foldl apt_install i).services = i.services := by
  induction reqs with
  | nil => intro i; exact ⟨rfl, rfl⟩
  | cons r reqs ih => intro i; exact ih (apt_install i r)

theorem mem_apt_install_foldl (reqs : List String) :
    ∀ (i : Installer) (x : String),
      x ∈ (reqs.foldl apt_install i).system_packages
        ↔ x ∈ i.system_packages ∨ ∃ r ∈ reqs, x ∈ words r := by
  induction reqs with
  | nil => intro i x; simp
  | cons r reqs ih =>
      intro i x
      simp only [List.foldl_cons, ih, List.mem_cons]
      unfold apt_install
      simp only [mem_foldl_setInsert]
      constructor
      · rintro (⟨h | h⟩ | ⟨q, hq, hx⟩)
        · exact Or.inl h
        · exact Or.inr ⟨r, Or.inl rfl, h⟩
        · exact Or.inr ⟨q, Or.inr hq, hx⟩
      · rintro (h | ⟨q, hq | hq, hx⟩)
        · exact Or.inl (Or.inl h)
        · exact Or.inl (Or.inr (hq ▸ hx))
        · exact Or.inr ⟨q, hq, hx⟩

theorem nodup_apt_install_foldl (reqs : List String) :
    ∀ i : Installer, i.system_packages.Nodup →
      (reqs.foldl apt_install i).system_packages.Nodup := by
  induction reqs with
  | nil => intro i h; simpa using h
  | cons r reqs ih =>
      intro i h
      exact ih _ (nodup_foldl_setInsert (words r) _ h)

theorem fsLookup_fsUpdate_self (fs : FS) (p : String)
    (f : FSEntry → FSEntry) :
    fsLookup (fsUpdate fs p f) p = (fsLookup fs p).map f := by
  induction fs with
  | nil => rfl
  | cons pe fs ih =>
      obtain ⟨k, v⟩ := pe
      by_cases hk : k = p
      · subst hk; simp [fsLookup, fsUpdate, List.find?]
      · simp only [fsUpdate, List.map_cons, if_neg hk]
        simp only [fsLookup, List.find?]
        rw [decide_eq_false hk]
        simpa [fsLookup, fsUpdate] using ih

theorem fsLookup_fsRemove_self (fs : FS) (p : String) :
    fsLookup (fsRemove fs p) p = none := by
  induction fs with
  | nil => rfl
  | cons pe fs ih =>
      obtain ⟨k, v⟩ := pe
      by_cases hk : k = p
      · rw [show fsRemove ((k, v) :: fs) p = fsRemove fs p by
            simp [fsRemove, hk]]
        exact ih
      · rw [show fsRemove ((k, v) :: fs) p = (k, v) :: fsRemove fs p by
            simp [fsRemove, hk]]
        simp only [fsLookup, List.find?, decide_eq_true_eq] at ih ⊢
        rw [decide_eq_false hk]
        exact ih

theorem fsLookup_fsRmtree_self (fs : FS) (p : String) :
    fsLookup (fsRmtree fs p) p = none := by
  induction fs with
  | nil => rfl
  | cons pe fs ih =>
      obtain ⟨k, v⟩ := pe
      by_cases hk : k = p
      · rw [show fsRmtree ((k, v) :: fs) p = fsRmtree fs p by
            simp [fsRmtree, hk]]
        exact ih
      · simp only [fsRmtree, List.filter] at ih ⊢
        by_cases hpre : (p ++ "/").isPrefixOf k
        · simpa [hk, hpre] using ih
        · simpa [fsLookup, List.find?, hk, hpre] using ih

/-! Concrete fixtures used by witnesses and counterexamples. -/

def zeroExit : String → Nat := fun _ => 0

def oneExit : String → Nat := fun _ => 1

def sampleFile : FSEntry :=
  { isDir := false, content := "x", mode := 0o644, group := "staff" }

def sampleDir : FSEntry :=
  { isDir := true, content := "", mode := 0o700, group := "staff" }

/-! Claim theorems. -/

/-- C4: for every session in batch mode and every default answer,
`yes_or_no` returns the default answer immediately, consuming nothing
from the input stream (no blocking input). -/
theorem yes_or_no_batch_returns_default (i : Installer) (input : List Char)
    (dflt : Bool) (h : i.batch = true) :
    yes_or_no i input dflt = some (dflt, input) := by
  simp [yes_or_no, h]

/-- Witness for C4 at a concrete batch session. -/
theorem yes_or_no_batch_returns_default_witness :
    yes_or_no ⟨true, [], []⟩ ['x'] false = some (false, ['x']) :=
  yes_or_no_batch_returns_default ⟨true, [], []⟩ ['x'] false rfl

/-- C5: `override_batch` restores the prior `batch` value on exit for
every body, whether the body finishes with `Except.ok` or with
`Except.error`; entering the scope changes no field other than `batch`,
and leaving it changes nothing of the body result except restoring
`batch`. -/
theorem override_batch_restores_and_frames {ε α : Type} (i : Installer)
    (b : Bool) (body : Installer → Installer × Except ε α) :
    (override_batch i b body).1.batch = i.batch
    ∧ (override_batch i b body).1.services
        = (body { i with batch := b }).1.services
    ∧ (override_batch i b body).1.system_packages
        = (body { i with batch := b }).1.system_packages
    ∧ (override_batch i b body).2 = (body { i with batch := b }).2
    ∧ ({ i with batch := b } : Installer).services = i.services
    ∧ ({ i with batch := b } : Installer).system_packages
        = i.system_packages :=
  ⟨rfl, rfl, rfl, rfl, rfl, rfl⟩

/-- C9: `check_usergroup` returns without effect for privileged sessions;
for non-privileged sessions it raises a `ClickException` exactly when the
group is missing from the memberships, and the remediation message names
the group. -/
theorem check_usergroup_spec (root : Bool) (username usergroup : String)
    (groups : List String) :
    (root = true →
      check_usergroup root username groups usergroup = Except.ok ())
    ∧ (root = false → usergroup ∈ groups →
      check_usergroup root username groups usergroup = Except.ok ())
    ∧ (root = false → usergroup ∉ groups →
      check_usergroup root username groups usergroup
        = Except.error ⟨usergroup_errmsg username usergroup⟩)
    ∧ (∃ pre post,
        usergroup_errmsg username usergroup = pre ++ usergroup ++ post) := by
  refine ⟨?_, ?_, ?_, ?_⟩
  · intro h; simp [check_usergroup, h]
  · intro h hm; simp [check_usergroup, h, hm]
  · intro h hm; simp [check_usergroup, h, hm]
  · refine ⟨"You " ++ username ++ " don\x27t belong to the ",
      " user group.  Maybe you want to run:\nsudo adduser `whoami` "
        ++ usergroup, ?_⟩
    simp [usergroup_errmsg, String.append_assoc]

/-- Witness for C9: the spec scenario, non-privileged, target group
www-data absent from staff and dev. -/
theorem check_usergroup_spec_witness :
    check_usergroup false "joe" ["staff", "dev"] "www-data"
      = Except.error ⟨usergroup_errmsg "joe" "www-data"⟩ :=
  (check_usergroup_spec false "joe" "www-data" ["staff", "dev"]).2.2.1
    rfl (by decide)

/-- C10: after every completed `write_supervisor_conf` call the service
name supervisor is in the pending services, independently of whether the
underlying file write happened or was declined. -/
theorem write_supervisor_conf_records_restart (root : Bool)
    (ug sd : String) (i : Installer) (fs : FS) (input : List Char)
    (fn content : String) (cm : Nat) (cg : String) (i2 : Installer)
    (fs2 : FS) (inp2 : List Char) (res : Option Bool)
    (h : write_supervisor_conf root ug sd i fs input fn content cm cg
      = some (i2, fs2, inp2, res)) :
    "supervisor" ∈ i2.services := by
  unfold write_supervisor_conf at h
  cases hw : write_file root ug i fs input (path_join sd fn) content false
      cm cg with
  | none => rw [hw] at h; cases h
  | some v =>
      obtain ⟨i3, fs3, inp3, r3⟩ := v
      rw [hw] at h
      simp only [Option.some.injEq, Prod.mk.injEq] at h
      obtain ⟨hi2, -⟩ := h
      rw [← hi2]
      exact mem_setInsert_self "supervisor" i3.services

/-- Witness for C10: the user declines to overwrite the existing config
file, so no write happens, yet supervisor is recorded for restart. -/
theorem write_supervisor_conf_records_restart_witness :
    "supervisor" ∈
      (Installer.mk false ["supervisor"] []).services :=
  write_supervisor_conf_records_restart false "www-data"
    "/etc/supervisor/conf.d" ⟨false, [], []⟩
    [("/etc/supervisor/conf.d/x.conf", sampleFile)] ['n'] "x.conf" "new"
    0o644 "root" ⟨false, ["supervisor"], []⟩
    [("/etc/supervisor/conf.d/x.conf", sampleFile)] [] none (by decide)

/-- C6: `check_overwrite` returns true without prompting when the path
does not exist; when the path exists and the confirmation is declined it
returns false with the filesystem (content, mode, everything) untouched;
when accepted it removes the file, or recursively removes the directory,
and returns true. -/
theorem check_overwrite_spec (i : Installer) (fs : FS) (input : List Char)
    (pth : String) :
    (fsLookup fs pth = none →
      check_overwrite i fs input pth = some (true, fs, input))
    ∧ (∀ e rest, fsLookup fs pth = some e →
        yes_or_no i input true = some (false, rest) →
        check_overwrite i fs input pth = some (false, fs, rest))
    ∧ (∀ e rest, fsLookup fs pth = some e →
        yes_or_no i input true = some (true, rest) →
        check_overwrite i fs input pth
          = some (true,
              (if e.isDir then fsRmtree fs pth else fsRemove fs pth), rest)
        ∧ fsLookup
            (if e.isDir then fsRmtree fs pth else fsRemove fs pth) pth
            = none) := by
  refine ⟨?_, ?_, ?_⟩
  · intro h; simp [check_overwrite, h]
  · intro e rest he hd
    unfold check_overwrite
    rw [he, hd]
    by_cases hdir : e.isDir <;> simp [hdir]
  · intro e rest he ha
    unfold check_overwrite
    rw [he, ha]
    by_cases hdir : e.isDir <;>
      simp [hdir, fsLookup_fsRmtree_self, fsLookup_fsRemove_self]

/-- Witness for C6: all three cases at concrete inputs, including a
declined overwrite of an existing file that is left untouched. -/
theorem check_overwrite_spec_witness :
    check_overwrite ⟨false, [], []⟩ [("f", sampleFile)] [] "g"
      = some (true, [("f", sampleFile)], [])
    ∧ check_overwrite ⟨false, [], []⟩ [("f", sampleFile)] ['n'] "f"
      = some (false, [("f", sampleFile)], [])
    ∧ check_overwrite ⟨false, [], []⟩ [("f", sampleFile)] ['y'] "f"
      = some (true, [], []) := by
  refine ⟨?_, ?_, ?_⟩
  · exact (check_overwrite_spec ⟨false, [], []⟩ [("f", sampleFile)] []
      "g").1 (by decide)
  · exact (check_overwrite_spec ⟨false, [], []⟩ [("f", sampleFile)] ['n']
      "f").2.1 sampleFile [] (by decide) (by decide)
  · exact ((check_overwrite_spec ⟨false, [], []⟩ [("f", sampleFile)] ['y']
      "f").2.2 sampleFile [] (by decide) (by decide)).1

/-- C2 amended: on a declined overwrite of an existing path, the legacy
script aborts the session cleanly (user cancellation, no mutation), while
the current utils implementation returns false with no mutation and the
session continues past the skipped action. -/
theorem overwrite_decline_behaviour (i : Installer) (fs : FS)
    (input rest : List Char) (pth : String) (e : FSEntry)
    (hb : i.batch = false)
    (he : fsLookup fs pth = some e)
    (hd : read_answer input = some (false, rest)) :
    GetlinoLegacy.check_overwrite i fs input pth
      = some (fs, some SessionExit.abort, rest)
    ∧ check_overwrite i fs input pth = some (false, fs, rest) := by
  constructor
  · unfold GetlinoLegacy.check_overwrite
    rw [he]
    by_cases hdir : e.isDir <;>
      simp [hdir, GetlinoLegacy.yes_or_no, hb, hd]
  · unfold check_overwrite
    rw [he]
    by_cases hdir : e.isDir <;> simp [hdir, yes_or_no, hb, hd]

/-- Counterexample for C2 as stated: in the current utils implementation
a declined overwrite does not abort the session; `check_overwrite`
returns false and the caller `write_file` simply skips the write and the
session continues (its result carries no cancellation signal). -/
theorem overwrite_decline_no_abort_counterexample :
    check_overwrite ⟨false, [], []⟩ [("f", sampleFile)] ['n'] "f"
      = some (false, [("f", sampleFile)], [])
    ∧ write_file false "www-data" ⟨false, [], []⟩ [("f", sampleFile)]
        ['n'] "f" "new" false 0o644 "root"
      = some (⟨false, [], []⟩, [("f", sampleFile)], [], none) := by
  constructor <;> decide

/-- Witness for C2 amended, at the same concrete declined overwrite. -/
theorem overwrite_decline_behaviour_witness :
    GetlinoLegacy.check_overwrite ⟨false, [], []⟩ [("f", sampleFile)]
        ['n'] "f"
      = some ([("f", sampleFile)], some SessionExit.abort, []) :=
  (overwrite_decline_behaviour ⟨false, [], []⟩ [("f", sampleFile)] ['n']
    [] "f" sampleFile rfl (by decide) (by decide)).1


/-- C7: once the gate let a command line through (it was actually
spawned), `runcmd` spawns it exactly once with no retry, raises a
`ClickException` naming the command and the exit code exactly when the
exit status is non-zero, and returns normally when it is zero. -/
theorem runcmd_failure_iff_nonzero (i : Installer) (exit : String → Nat)
    (input : List Char) (cmd : String) (effs : List Effect)
    (r : Except ClickException Unit) (rest : List Char)
    (h : runcmd i exit input cmd = some (effs, r, rest))
    (hrun : Effect.runProcess cmd ∈ effs) :
    effs = [Effect.echo cmd, Effect.runProcess cmd]
    ∧ (exit cmd ≠ 0 → r = Except.error
        ⟨cmd ++ " ended with return code " ++ toString (exit cmd)⟩)
    ∧ (exit cmd = 0 → r = Except.ok ()) := by
  unfold runcmd at h
  by_cases hb : i.batch
  · by_cases hrc : exit cmd = 0
    · simp [hb, hrc] at h
      obtain ⟨h1, h2, -⟩ := h
      exact ⟨h1.symm, fun hc => absurd hrc hc, fun _ => h2.symm⟩
    · simp [hb, hrc] at h
      obtain ⟨h1, h2, -⟩ := h
      exact ⟨h1.symm, fun _ => h2.symm, fun hc => absurd hc hrc⟩
  · simp only [hb, ite_false, Bool.false_eq_true, if_false] at h
    cases ha : read_answer input with
    | none => rw [ha] at h; cases h
    | some v =>
        obtain ⟨ans, rest2⟩ := v
        rw [ha] at h
        cases ans with
        | true =>
            by_cases hrc : exit cmd = 0
            · simp [hrc] at h
              obtain ⟨h1, h2, -⟩ := h
              exact ⟨h1.symm, fun hc => absurd hrc hc, fun _ => h2.symm⟩
            · simp [hrc] at h
              obtain ⟨h1, h2, -⟩ := h
              exact ⟨h1.symm, fun _ => h2.symm, fun hc => absurd hc hrc⟩
        | false =>
            simp at h
            obtain ⟨h1, -⟩ := h
            rw [h1] at hrun
            cases hrun

/-- Witness for C7: a confirmed (batch) command with constant exit code 1
raises the exception whose message names the command and the code. -/
theorem runcmd_failure_iff_nonzero_witness :
    (Except.error ⟨"ls ended with return code 1"⟩
        : Except ClickException Unit)
      = Except.error
          ⟨"ls" ++ " ended with return code " ++ toString (oneExit "ls")⟩ :=
  (runcmd_failure_iff_nonzero ⟨true, [], []⟩ oneExit [] "ls"
      [Effect.echo "ls", Effect.runProcess "ls"]
      (Except.error ⟨"ls ended with return code 1"⟩) [] rfl
      (by decide)).2.1 (by decide)

/-- Counterexample for C1 as stated: a non-privileged batch session with
one pending package does not skip the flush; `finish` executes the
package-manager install invocation (and no skip report is emitted). -/
theorem finish_not_skipped_counterexample :
    finish false ⟨true, [], ["nginx"]⟩ zeroExit []
      = some ([Effect.echo "sudo apt-get install -y nginx",
          Effect.runProcess "sudo apt-get install -y nginx"],
          Except.ok (), [])
    ∧ Effect.runProcess "sudo apt-get install -y nginx"
        ∈ [Effect.echo "sudo apt-get install -y nginx",
           Effect.runProcess "sudo apt-get install -y nginx"] :=
  ⟨rfl, by decide⟩

/-- C1 amended: the skip branch of `finish` is unreachable because its
guard is conjoined with a literal false in the source, so `finish`
behaves identically for privileged and non-privileged sessions; in
particular a non-privileged batch session with pending packages still
executes the package-manager install invocation. -/
theorem finish_ignores_privilege (root : Bool) (i : Installer)
    (exit : String → Nat) (input : List Char) :
    finish root i exit input = finish true i exit input
    ∧ (i.batch = true → i.services = [] → i.system_packages ≠ [] →
        exit (apt_cmd i) = 0 →
        finish root i exit input
          = some ([Effect.echo (apt_cmd i),
              Effect.runProcess (apt_cmd i)], Except.ok (), input)) := by
  constructor
  · unfold finish; simp
  · intro hb hs hp he
    unfold finish run_apt_install runcmd
    simp [hb, hs, hp, he]

/-- Witness for C1 amended: the non-privileged batch session with one
pending package, via the amended theorem. -/
theorem finish_ignores_privilege_witness :
    finish false ⟨true, [], ["nginx"]⟩ zeroExit []
      = some ([Effect.echo (apt_cmd ⟨true, [], ["nginx"]⟩),
          Effect.runProcess (apt_cmd ⟨true, [], ["nginx"]⟩)],
          Except.ok (), []) :=
  (finish_ignores_privilege false ⟨true, [], ["nginx"]⟩ zeroExit []).2
    rfl rfl (by decide) rfl

/-- C3: over any sequence of package requests on a fresh session, the
accumulated package list is duplicate-free and its membership is exactly
the union of the space-separated names of all requests; the single flush
command line lists that set once each, with the non-interactive flag in
batch mode, and `finish` issues exactly that one invocation. -/
theorem apt_flush_spec (b : Bool) (reqs : List String) (root : Bool)
    (exit : String → Nat) (input : List Char) (i : Installer)
    (hi : i = reqs.foldl apt_install ⟨b, [], []⟩) :
    i.system_packages.Nodup
    ∧ (∀ x, x ∈ i.system_packages ↔ ∃ r ∈ reqs, x ∈ words r)
    ∧ (∀ x ∈ i.system_packages, i.system_packages.count x = 1)
    ∧ apt_cmd i = "sudo apt-get install " ++ (if b then "-y " else "")
        ++ String.intercalate " " i.system_packages
    ∧ (b = true → i.system_packages ≠ [] → exit (apt_cmd i) = 0 →
        finish root i exit input
          = some ([Effect.echo (apt_cmd i),
              Effect.runProcess (apt_cmd i)], Except.ok (), input)) := by
  have hbatch : i.batch = b := by
    rw [hi]; exact (apt_install_foldl_fields reqs _).1
  have hserv : i.services = [] := by
    rw [hi]; exact (apt_install_foldl_fields reqs _).2
  have hnd : i.system_packages.Nodup := by
    rw [hi]; exact nodup_apt_install_foldl reqs _ (by simp)
  refine ⟨hnd, ?_, ?_, ?_, ?_⟩
  · intro x
    rw [hi, mem_apt_install_foldl]
    simp
  · intro x hx
    exact List.count_eq_one_of_mem hnd hx
  · unfold apt_cmd
    rw [hbatch]
  · intro hb hp he
    unfold finish run_apt_install runcmd
    simp [hbatch, hb, hserv, hp, he]

/-- Witness for C3: the spec scenario, requests accumulating to the set
nginx, supervisor, sqlite3 in batch mode produce exactly one command
line with all three names and the -y flag. -/
theorem apt_flush_spec_witness :
    apt_cmd (List.foldl apt_install ⟨true, [], []⟩
        ["nginx supervisor", "sqlite3", "nginx"])
      = "sudo apt-get install -y nginx supervisor sqlite3"
    ∧ finish false (List.foldl apt_install ⟨true, [], []⟩
        ["nginx supervisor", "sqlite3", "nginx"]) zeroExit []
      = some ([Effect.echo (apt_cmd (List.foldl apt_install ⟨true, [], []⟩
            ["nginx supervisor", "sqlite3", "nginx"])),
          Effect.runProcess (apt_cmd (List.foldl apt_install ⟨true, [], []⟩
            ["nginx supervisor", "sqlite3", "nginx"]))],
          Except.ok (), []) := by
  constructor
  · rfl
  · exact (apt_flush_spec true ["nginx supervisor", "sqlite3", "nginx"]
      false zeroExit [] _ rfl).2.2.2.2 rfl (by decide) rfl

/-- Counterexample for C8 as stated: on a directory whose group owner and
permission bits are both wrong, the first invocation already issues two
corrective mutations (one chown and one chmod), so two consecutive
invocations issue two mutations, not at most one; the second invocation
is nevertheless a no-op. -/
theorem check_permissions_two_mutations_counterexample :
    check_permissions true "www-data" ⟨true, [], []⟩ [("d", sampleDir)]
        [] "d" false
      = some ([("d", (FSEntry.mk true "" 0o2775 "www-data"))],
          [Effect.chown "d" "www-data", Effect.chmod "d" 0o2775], [])
    ∧ mutationCount
        [Effect.chown "d" "www-data", Effect.chmod "d" 0o2775] = 2
    ∧ check_permissions true "www-data" ⟨true, [], []⟩
        [("d", (FSEntry.mk true "" 0o2775 "www-data"))] [] "d" false
      = some ([("d", (FSEntry.mk true "" 0o2775 "www-data"))], [], []) := by
  refine ⟨by decide, by decide, by decide⟩

/-- C8 amended: in batch mode, a first `check_permissions` invocation
issues at most two corrective mutations (at most one group-owner change
and at most one mode change), and a second consecutive invocation on the
resulting unchanged filesystem performs no mutation at all. -/
theorem check_permissions_idempotent (root : Bool) (ug : String)
    (i : Installer) (fs fs1 : FS) (input inp1 : List Char) (pth : String)
    (ex : Bool) (effs1 : List Effect)
    (hb : i.batch = true)
    (h1 : check_permissions root ug i fs input pth ex
      = some (fs1, effs1, inp1)) :
    check_permissions root ug i fs1 inp1 pth ex = some (fs1, [], inp1)
    ∧ mutationCount effs1 ≤ 2 := by
  unfold check_permissions at h1 ⊢
  cases hsi : fsLookup fs pth with
  | none => rw [hsi] at h1; cases h1
  | some si =>
    rw [hsi] at h1
    simp only [batch_or_confirm, hb, ite_true] at h1 ⊢
    split at h1
    next hag => exact Option.noConfusion h1
    next fs2 effs2 inp2 hag =>
      split at h1
      next hm =>
        simp only [Option.some.injEq, Prod.mk.injEq] at h1
        obtain ⟨hfs, heff, hinp⟩ := h1
        split at hag
        next hroot =>
          split at hag
          next hgr =>
            simp only [Option.some.injEq, Prod.mk.injEq] at hag
            obtain ⟨h2, h3, h4⟩ := hag
            subst h2; subst h3; subst h4
            subst hfs; subst heff; subst hinp
            refine ⟨?_, by simp [mutationCount]⟩
            simp [fsLookup_fsUpdate_self, hsi, hroot, hgr, Nat.xor_self]
          next hgr =>
            simp only [Option.some.injEq, Prod.mk.injEq] at hag
            obtain ⟨h2, h3, h4⟩ := hag
            subst h2; subst h3; subst h4
            subst hfs; subst heff; subst hinp
            refine ⟨?_, by simp [mutationCount]⟩
            simp [fsLookup_fsUpdate_self, hsi, hroot, Nat.xor_self]
        next hroot =>
          simp only [Option.some.injEq, Prod.mk.injEq] at hag
          obtain ⟨h2, h3, h4⟩ := hag
          subst h2; subst h3; subst h4
          subst hfs; subst heff; subst hinp
          refine ⟨?_, by simp [mutationCount]⟩
          simp [fsLookup_fsUpdate_self, hsi, hroot, Nat.xor_self]
      next hm =>
        simp only [Option.some.injEq, Prod.mk.injEq] at h1
        obtain ⟨hfs, heff, hinp⟩ := h1
        split at hag
        next hroot =>
          split at hag
          next hgr =>
            simp only [Option.some.injEq, Prod.mk.injEq] at hag
            obtain ⟨h2, h3, h4⟩ := hag
            subst h2; subst h3; subst h4
            subst hfs; subst heff; subst hinp
            refine ⟨?_, by simp [mutationCount]⟩
            simp [hsi, hroot, hgr, hm]
          next hgr =>
            simp only [Option.some.injEq, Prod.mk.injEq] at hag
            obtain ⟨h2, h3, h4⟩ := hag
            subst h2; subst h3; subst h4
            subst hfs; subst heff; subst hinp
            refine ⟨?_, by simp [mutationCount]⟩
            simp [fsLookup_fsUpdate_self, hsi, hroot, hm]
        next hroot =>
          simp only [Option.some.injEq, Prod.mk.injEq] at hag
          obtain ⟨h2, h3, h4⟩ := hag
          subst h2; subst h3; subst h4
          subst hfs; subst heff; subst hinp
          refine ⟨?_, by simp [mutationCount]⟩
          simp [hsi, hroot, hm]

/-- Witness for C8 amended: a directory with correct group but wrong
mode; after the first corrective call the second call is a no-op. -/
theorem check_permissions_idempotent_witness :
    check_permissions true "www-data" ⟨true, [], []⟩
        [("d", (FSEntry.mk true "" 0o2775 "www-data"))] [] "d" false
      = some ([("d", (FSEntry.mk true "" 0o2775 "www-data"))], [], [])
    ∧ mutationCount [Effect.chmod "d" 0o2775] ≤ 2 :=
  check_permissions_idempotent true "www-data" ⟨true, [], []⟩
    [("d", (FSEntry.mk true "" 0o700 "www-data"))]
    [("d", (FSEntry.mk true "" 0o2775 "www-data"))]
    [] [] "d" false [Effect.chmod "d" 0o2775] rfl (by decide)
